import Mathlib

/-!
Verification of the worker-pool supervisor (`crates/pathfinder/src/cairo/ext_py/service.rs`)
and the elliptic-curve primitives (`src/pedersen.rs`) of the pathfinder repository.

The supervisor's `start` function and its steady-state loop are embedded as an explicit
state-transition system: each iteration of the `tokio::select!` loop consumes one timed
event (stop flag fired, status-channel message, join-handle completion, or cooldown-timer
expiry), and the post-select spawn/reset code is translated branch by branch.
-/

namespace ExtPy

/-- Errors flowing through `anyhow::Result`; `context` models `e.context(msg)`. -/
inductive PyErr where
  | launchFailed (code : Nat)
  | context (msg : String) (inner : PyErr)
deriving DecidableEq

/-- `SubProcessEvent` from the `ext_py` module: `ProcessLaunched(pid)`,
`CommandHandled(pid, timings, status)` and `Failure(maybe_pid, error)`.
The `timings` and `status` payloads are opaque to the supervisor and modelled as `Nat`. -/
inductive SubProcessEvent where
  | processLaunched (pid : Nat)
  | commandHandled (pid : Nat) (timings : Nat) (status : Nat)
  | failure (pid : Option Nat) (err : PyErr)
deriving DecidableEq

/-- `WAIT_BEFORE_SPAWN = Duration::from_secs(1)`, the cooldown between spawns,
measured here in abstract time units. -/
def WAIT_BEFORE_SPAWN : Nat := 1

/-- Supervisor-loop state. `outstanding` is `joinhandles.len()` (the
`FuturesUnordered` of worker join handles); `deadline` is the instant at which the
pinned `wait_before_spawning` sleep elapses (the sleep is considered elapsed at any
time `t` with `deadline ≤ t`); `stopped` records that the stop branch of the select
has been taken, after which the loop returns. On the stop branch the code runs
`joinhandles.into_future().await`, which resolves after the next single completion of
the stream (or immediately when it is empty) and drops the remaining join handles:
`awaitedOnStop` counts the completions awaited before returning and `detachedOnStop`
the join handles dropped without being awaited. -/
structure LoopState where
  outstanding : Nat
  deadline : Nat
  stopped : Bool
  awaitedOnStop : Nat
  detachedOnStop : Nat
deriving DecidableEq

/-- State on entry to the steady-state loop: the bootstrap worker is the single
outstanding task and the sleep was armed at loop start (time 0). -/
def initLoopState : LoopState :=
  { outstanding := 1
    deadline := WAIT_BEFORE_SPAWN
    stopped := false
    awaitedOnStop := 0
    detachedOnStop := 0 }

/-- Which select branch fired in one loop iteration. -/
inductive LoopEvent where
  | stop
  | status (e : SubProcessEvent)
  | joinNext
  | cooldown
deriving DecidableEq

/-- Kind of a spawn performed by the loop body: `emergency` from the join-handle
branch when the pool became empty, `normal` from the cooldown-timer branch. -/
inductive SpawnKind where
  | emergency
  | normal
deriving DecidableEq

/-- The trailing `else if count.get() > joinhandles.len() && wait_before_spawning.is_elapsed()`
re-arm of the sleep, executed on iterations where no spawn happened. -/
def maybeReset (count t : Nat) (s : LoopState) : LoopState :=
  if s.deadline ≤ t ∧ s.outstanding < count then
    { s with deadline := t + WAIT_BEFORE_SPAWN }
  else
    s

/-- One iteration of the supervisor loop at time `t`: the fired select branch plus the
post-select spawn/reset code, returning the new state and the spawns performed
(with their times). A stopped loop has returned, so no event changes it. -/
def step (count t : Nat) (s : LoopState) (e : LoopEvent) :
    LoopState × List (Nat × SpawnKind) :=
  if s.stopped then (s, [])
  else
    match e with
    | .stop =>
        ({ s with
            stopped := true
            awaitedOnStop := min s.outstanding 1
            detachedOnStop := s.outstanding - min s.outstanding 1 }, [])
    | .status _ =>
        (maybeReset count t s, [])
    | .joinNext =>
        let rest := s.outstanding - 1
        if rest = 0 then
          ({ s with outstanding := 1 }, [(t, SpawnKind.emergency)])
        else
          (maybeReset count t { s with outstanding := rest }, [])
    | .cooldown =>
        if s.outstanding < count then
          ({ s with outstanding := s.outstanding + 1 }, [(t, SpawnKind.normal)])
        else
          (s, [])

/-- A timed schedule is admissible from state `s` when times are nondecreasing
(starting at `tmin`), the join-handle branch only fires while the pool is nonempty
(`FuturesUnordered` yields `Some` only then) and the cooldown branch only fires once
the sleep has elapsed. -/
def validFrom (count tmin : Nat) (s : LoopState) : List (Nat × LoopEvent) → Bool
  | [] => true
  | (t, e) :: rest =>
      decide (tmin ≤ t) &&
      (match e with
        | .joinNext => decide (0 < s.outstanding)
        | .cooldown => decide (s.deadline ≤ t)
        | _ => true) &&
      validFrom count t (step count t s e).1 rest

/-- Final state after running the loop over a timed schedule. -/
def run (count : Nat) (s : LoopState) : List (Nat × LoopEvent) → LoopState
  | [] => s
  | (t, e) :: rest => run count (step count t s e).1 rest

/-- Log of all spawns (time and kind) performed while running a timed schedule. -/
def runLog (count : Nat) (s : LoopState) : List (Nat × LoopEvent) → List (Nat × SpawnKind)
  | [] => []
  | (t, e) :: rest => (step count t s e).2 ++ runLog count (step count t s e).1 rest

/-- Outcome of the synchronous part of `start`: either the steady-state loop is
entered (a `Handle` is produced), or the launch error is returned, or the process
panics (`unreachable!`). -/
inductive BootstrapResult where
  | ok (s : LoopState)
  | err (e : PyErr)
  | panicked
deriving DecidableEq

/-- The `match status_rx.recv().await` bootstrap of `start`: `ProcessLaunched` enters
the loop, `Failure` returns the error with context `"Launch first python executor"`,
`CommandHandled` hits `unreachable!`, and a closed channel (`None`) hits the other
`unreachable!`. -/
def bootstrap (first : Option SubProcessEvent) : BootstrapResult :=
  match first with
  | some (.processLaunched _) => .ok initLoopState
  | some (.failure _ e) => .err (.context "Launch first python executor" e)
  | some (.commandHandled _ _ _) => .panicked
  | none => .panicked

/-- Modelled from the spec: the worker task body (`launch_python` in the `sub_process`
module, which is not part of the supervisor source) emits `CommandHandled` only after
claiming a Command from the shared queue, so while no Command has been offered the
first status event is `ProcessLaunched` or `Failure`. -/
def firstEventPossible : SubProcessEvent → Prop
  | .commandHandled _ _ _ => False
  | _ => True

/-- `mpsc::channel(1)`: the capacity of the Command Queue created by `start`. -/
def commandChannelCapacity : Nat := 1

/-- Bounded-channel send: accepted only while the queue holds fewer than `capacity`
items; a full queue makes the sender suspend (`none`). -/
def trySend {α : Type} (capacity : Nat) (q : List α) (c : α) : Option (List α) :=
  if q.length < capacity then some (q ++ [c]) else none

end ExtPy

namespace ExtPy

/- Helper lemmas about single steps, shared by the claim theorems. -/

lemma step_stopped (count t : Nat) (s : LoopState) (e : LoopEvent)
    (h : s.stopped = true) : step count t s e = (s, []) := by
  simp [step, h]

lemma maybeReset_outstanding (count t : Nat) (s : LoopState) :
    (maybeReset count t s).outstanding = s.outstanding := by
  unfold maybeReset
  split <;> rfl

lemma maybeReset_deadline_mono (count t : Nat) (s : LoopState) :
    s.deadline ≤ (maybeReset count t s).deadline := by
  unfold maybeReset
  split
  · next h => exact le_trans h.1 (Nat.le_add_right t _)
  · exact le_rfl

lemma step_deadline_mono (count t : Nat) (s : LoopState) (e : LoopEvent) :
    s.deadline ≤ (step count t s e).1.deadline := by
  unfold step
  split
  · exact le_rfl
  · cases e with
    | stop => exact le_rfl
    | status e => exact maybeReset_deadline_mono count t s
    | joinNext =>
        simp only
        split
        · exact le_rfl
        · exact maybeReset_deadline_mono count t { s with outstanding := s.outstanding - 1 }
    | cooldown =>
        simp only
        split <;> exact le_rfl

lemma step_outstanding_le (count t : Nat) (s : LoopState) (e : LoopEvent)
    (hc : 1 ≤ count) (h : s.outstanding ≤ count) :
    (step count t s e).1.outstanding ≤ count := by
  unfold step
  split
  · exact h
  · cases e with
    | stop => exact h
    | status e => rw [maybeReset_outstanding]; exact h
    | joinNext =>
        simp only
        split
        · exact hc
        · rw [maybeReset_outstanding]
          exact le_trans (Nat.sub_le _ _) h
    | cooldown =>
        simp only
        split
        · next hlt => exact hlt
        · exact h

lemma step_awaited_le (count t : Nat) (s : LoopState) (e : LoopEvent)
    (h : s.awaitedOnStop ≤ 1) : (step count t s e).1.awaitedOnStop ≤ 1 := by
  unfold step
  split
  · exact h
  · cases e with
    | stop => exact Nat.min_le_right _ _
    | status e =>
        show (maybeReset count t s).awaitedOnStop ≤ 1
        unfold maybeReset
        split <;> exact h
    | joinNext =>
        simp only
        split
        · exact h
        · show (maybeReset count t _).awaitedOnStop ≤ 1
          unfold maybeReset
          split <;> exact h
    | cooldown =>
        simp only
        split <;> exact h

lemma run_awaited_le (count : Nat) (s : LoopState) (sched : List (Nat × LoopEvent))
    (h : s.awaitedOnStop ≤ 1) : (run count s sched).awaitedOnStop ≤ 1 := by
  induction sched generalizing s with
  | nil => exact h
  | cons te rest ih =>
      exact ih _ (step_awaited_le count te.1 s te.2 h)

lemma run_stopped_id (count : Nat) (s : LoopState) (sched : List (Nat × LoopEvent))
    (h : s.stopped = true) : run count s sched = s := by
  induction sched with
  | nil => rfl
  | cons te rest ih =>
      show run count (step count te.1 s te.2).1 rest = s
      rw [step_stopped count te.1 s te.2 h]
      exact ih

lemma runLog_stopped_nil (count : Nat) (s : LoopState) (sched : List (Nat × LoopEvent))
    (h : s.stopped = true) : runLog count s sched = [] := by
  induction sched with
  | nil => rfl
  | cons te rest ih =>
      show (step count te.1 s te.2).2 ++ runLog count (step count te.1 s te.2).1 rest = []
      rw [step_stopped count te.1 s te.2 h]
      simpa using ih

end ExtPy

namespace Pedersen

/-- The modulus of the field `Fp` from `src/pedersen.rs`
(`PrimeFieldModulus = "3618502788666131213697322783095070105623107215331596699973092056135872020481"`). -/
def fieldModulus : Nat :=
  3618502788666131213697322783095070105623107215331596699973092056135872020481

/-- The field primitive `Fp` used by the Pedersen hash, as the integers modulo
`fieldModulus`. -/
abbrev Fp : Type := ZMod fieldModulus

instance : Fact (1 < fieldModulus) := ⟨by norm_num [fieldModulus]⟩

/-- `ff::Field::invert`: `CtOption` holding the multiplicative inverse, which is
`None` exactly on zero; `unwrap`ping the `None` panics. -/
def Fp.invert (a : Fp) : Option Fp :=
  if a = 0 then none else some a⁻¹

/-- A point on the Stark curve over `Fp` (`struct CurvePoint { x, y, infinity }`),
with the derived structural equality (`#[derive(PartialEq, Eq)]` compares all three
fields, coordinates included even when `infinity` is set). -/
structure CurvePoint where
  x : Fp
  y : Fp
  infinity : Bool
deriving DecidableEq

/-- `CurvePoint::identity()`: the point at infinity with zero coordinates. -/
def CurvePoint.identity : CurvePoint :=
  { x := 0, y := 0, infinity := true }

/-- `CurvePoint::add`: returns the other operand when either side is at infinity;
otherwise computes the chord slope `(y2 - y1) / (x2 - x1)`. The division unwraps
`Fp::invert`, so the result is `none` (a panic in the source) when the inversion
fails. -/
def CurvePoint.add (p q : CurvePoint) : Option CurvePoint :=
  if p.infinity then some q
  else if q.infinity then some p
  else
    match Fp.invert (q.x - p.x) with
    | none => none
    | some divisorInv =>
        let lambda := (q.y - p.y) * divisorInv
        let rx := lambda * lambda - p.x - q.x
        let ry := lambda * (p.x - rx) - p.y
        some { x := rx, y := ry, infinity := false }

end Pedersen

namespace ExtPy

/-- Claim C1, counterexample: with `count = 2`, after the first cooldown spawn the
pool holds two outstanding worker tasks; observing the stop signal then makes the
supervisor await only one completion (`joinhandles.into_future().await` resolves on
the next single item of the `FuturesUnordered`) and return with the second join
handle dropped, so the loop returns before every spawned worker task has exited. -/
theorem stop_detaches_second_worker :
    validFrom 2 0 initLoopState [(1, .cooldown), (1, .stop)] = true ∧
    (run 2 initLoopState [(1, .cooldown), (1, .stop)]).stopped = true ∧
    (run 2 initLoopState [(1, .cooldown), (1, .stop)]).awaitedOnStop = 1 ∧
    (run 2 initLoopState [(1, .cooldown), (1, .stop)]).detachedOnStop = 1 := by
  decide

/-- Claim C1 (corrected): after the stop signal is observed the supervisor awaits at
most one outstanding worker-task completion before returning; the remaining join
handles are dropped without being awaited, so in every execution the number of
completions awaited on stop is at most one. -/
theorem stop_awaits_at_most_one (count : Nat) (sched : List (Nat × LoopEvent)) :
    (run count initLoopState sched).awaitedOnStop ≤ 1 :=
  run_awaited_le count initLoopState sched (Nat.zero_le 1)

/-- Claim C2, counterexample: with `count = 3`, once the cooldown sleep elapses at
time 1 the cooldown branch spawns a worker without re-arming the sleep, so the very
next iteration spawns again at the same instant: two non-emergency spawns separated
by less than the cooldown interval. -/
theorem consecutive_cooldown_spawns :
    validFrom 3 0 initLoopState [(1, .cooldown), (1, .cooldown)] = true ∧
    runLog 3 initLoopState [(1, .cooldown), (1, .cooldown)] =
      [(1, SpawnKind.normal), (1, SpawnKind.normal)] ∧
    0 < WAIT_BEFORE_SPAWN := by
  decide

/-- Helper: the only branch whose spawn log holds a `normal` spawn is the cooldown
branch, and it stamps the spawn with the iteration's time. -/
lemma step_log_normal (count t₀ : Nat) (s : LoopState) (e : LoopEvent) (t : Nat)
    (hmem : (t, SpawnKind.normal) ∈ (step count t₀ s e).2) :
    t = t₀ ∧ e = .cooldown := by
  unfold step at hmem
  split at hmem
  · simp at hmem
  · cases e with
    | stop => simp at hmem
    | status e => simp at hmem
    | joinNext =>
        simp only at hmem
        split at hmem
        · simp at hmem
        · simp at hmem
    | cooldown =>
        simp only at hmem
        split at hmem
        · simp at hmem
          exact ⟨hmem, rfl⟩
        · simp at hmem

/-- Claim C2 (corrected): in any admissible execution, every non-emergency
(cooldown-branch) spawn happens no earlier than the sleep deadline in force at the
start of the execution. The deadline is armed to one cooldown after loop start and
every re-arm sets it one cooldown past the current time, so a non-emergency spawn
never precedes the most recent arming by less than the cooldown; but because the
sleep is not re-armed on iterations that spawn, several non-emergency spawns may
share one expiry with no separation between them. -/
theorem normal_spawn_after_deadline (count tmin : Nat) (s : LoopState)
    (sched : List (Nat × LoopEvent)) (hv : validFrom count tmin s sched = true)
    (t : Nat) (hmem : (t, SpawnKind.normal) ∈ runLog count s sched) :
    s.deadline ≤ t := by
  induction sched generalizing tmin s with
  | nil => simp [runLog] at hmem
  | cons te rest ih =>
      obtain ⟨t₀, e⟩ := te
      simp only [runLog, List.mem_append] at hmem
      rcases hmem with hmem | hmem
      · obtain ⟨rfl, rfl⟩ := step_log_normal count t₀ s e t hmem
        simp only [validFrom, Bool.and_eq_true, decide_eq_true_eq] at hv
        exact hv.1.2
      · simp only [validFrom, Bool.and_eq_true] at hv
        exact le_trans (step_deadline_mono count t₀ s e)
          (ih t₀ (step count t₀ s e).1 hv.2 hmem)

/-- Claim C2 witness: the amended theorem applied to the one-event schedule that
spawns at the initial deadline. -/
theorem normal_spawn_after_deadline_at_one :
    initLoopState.deadline ≤ 1 :=
  normal_spawn_after_deadline 2 0 initLoopState [(1, .cooldown)] (by decide) 1 (by decide)

/-- Claim C3 (confirmed): for every desired count at least one, when the first
status event is a `Failure` the bootstrap returns the launch error wrapped with the
context `"Launch first python executor"`, and the steady-state loop is never
entered (no `ok` outcome, hence no Handle). -/
theorem bootstrap_failure_errors (count : Nat) (hc : 1 ≤ count)
    (pid : Option Nat) (err : PyErr) :
    bootstrap (some (.failure pid err))
        = .err (.context "Launch first python executor" err) ∧
    ∀ s : LoopState, bootstrap (some (.failure pid err)) ≠ .ok s := by
  constructor
  · rfl
  · intro s
    simp [bootstrap]

/-- Claim C3 witness: the bootstrap outcome on a concrete failed launch. -/
theorem bootstrap_failure_errors_example :
    bootstrap (some (.failure none (.launchFailed 0)))
        = .err (.context "Launch first python executor" (.launchFailed 0)) :=
  (bootstrap_failure_errors 1 (by decide) none (.launchFailed 0)).1

/-- Claim C4 (confirmed): the stop branch never increases the outstanding count and
performs no spawn, and once the loop has observed the stop signal (and returned) no
later event changes the state or spawns a worker, so the outstanding count never
increases after stop. -/
theorem no_post_stop_spawns :
    (∀ (count t : Nat) (s : LoopState),
        (step count t s .stop).1.outstanding ≤ s.outstanding ∧
        (step count t s .stop).2 = []) ∧
    (∀ (count : Nat) (s : LoopState) (sched : List (Nat × LoopEvent)),
        s.stopped = true → run count s sched = s ∧ runLog count s sched = []) := by
  constructor
  · intro count t s
    constructor
    · unfold step
      split
      · exact le_rfl
      · exact le_rfl
    · unfold step
      split
      · rfl
      · rfl
  · intro count s sched h
    exact ⟨run_stopped_id count s sched h, runLog_stopped_nil count s sched h⟩

/-- Claim C4 witness: a stopped state is left unchanged, with no spawns, by a
concrete later schedule. -/
theorem no_post_stop_spawns_example :
    run 3 ⟨2, 1, true, 1, 1⟩ [(3, .cooldown), (4, .joinNext)] = ⟨2, 1, true, 1, 1⟩ ∧
    runLog 3 ⟨2, 1, true, 1, 1⟩ [(3, .cooldown), (4, .joinNext)] = [] :=
  no_post_stop_spawns.2 3 ⟨2, 1, true, 1, 1⟩ [(3, .cooldown), (4, .joinNext)] rfl

/-- Claim C5 (confirmed): on a worker-task completion the task is removed from the
outstanding set; when the set becomes empty a replacement is spawned in the same
iteration with no cooldown condition (emergency), and otherwise no spawn happens in
that iteration. -/
theorem join_completion_spawn (count t : Nat) (s : LoopState)
    (h : s.stopped = false) :
    (step count t s .joinNext).1.outstanding
        = (if s.outstanding - 1 = 0 then 1 else s.outstanding - 1) ∧
    (step count t s .joinNext).2
        = (if s.outstanding - 1 = 0 then [(t, SpawnKind.emergency)] else []) := by
  by_cases h0 : s.outstanding - 1 = 0
  · simp [step, h, h0]
  · simp [step, h, h0, maybeReset_outstanding]

/-- Claim C5 witness: a completion that empties the pool triggers the emergency
spawn at that very iteration. -/
theorem join_completion_spawn_example :
    (step 2 7 initLoopState .joinNext).1.outstanding
        = (if initLoopState.outstanding - 1 = 0 then 1
           else initLoopState.outstanding - 1) ∧
    (step 2 7 initLoopState .joinNext).2
        = (if initLoopState.outstanding - 1 = 0 then [(7, SpawnKind.emergency)]
           else []) :=
  join_completion_spawn 2 7 initLoopState rfl

/-- Claim C6 (confirmed): for every desired count at least one, every state reached
from loop entry keeps the outstanding count at most the desired count, and every
single step preserves that bound. -/
theorem pool_size_bounded (count : Nat) (hc : 1 ≤ count) :
    (∀ sched : List (Nat × LoopEvent),
        (run count initLoopState sched).outstanding ≤ count) ∧
    (∀ (t : Nat) (s : LoopState) (e : LoopEvent), s.outstanding ≤ count →
        (step count t s e).1.outstanding ≤ count) := by
  constructor
  · intro sched
    have h1 : initLoopState.outstanding ≤ count := hc
    revert h1
    generalize initLoopState = s
    intro h1
    induction sched generalizing s with
    | nil => exact h1
    | cons te rest ih =>
        exact ih _ (step_outstanding_le count te.1 s te.2 hc h1)
  · intro t s e h
    exact step_outstanding_le count t s e hc h

/-- Claim C6 witness: the bound on a concrete run that spawns up to the target. -/
theorem pool_size_bounded_example :
    (run 2 initLoopState [(1, .cooldown), (1, .cooldown), (2, .joinNext)]).outstanding
        ≤ 2 :=
  (pool_size_bounded 2 (by decide)).1 [(1, .cooldown), (1, .cooldown), (2, .joinNext)]

/-- Claim C7 (confirmed): a `CommandHandled` first event makes the bootstrap panic
(`unreachable!`), never an error return; and for every first event that the worker
can emit before any Command has been offered (modelled from the spec), the panic
branch is not reached. -/
theorem handled_first_event_panics :
    (∀ pid timings status : Nat,
        bootstrap (some (.commandHandled pid timings status)) = .panicked) ∧
    (∀ e : SubProcessEvent, firstEventPossible e → bootstrap (some e) ≠ .panicked) := by
  constructor
  · intro pid timings status
    rfl
  · intro e he
    cases e with
    | processLaunched pid => simp [bootstrap]
    | commandHandled pid timings status => exact he.elim
    | failure pid err => simp [bootstrap]

/-- Claim C7 witness: a launched first event does not hit the panic branch. -/
theorem handled_first_event_panics_example :
    bootstrap (some (.processLaunched 0)) ≠ .panicked :=
  handled_first_event_panics.2 (.processLaunched 0) trivial

/-- Claim C8 (confirmed): the Command Queue is created with capacity exactly one, so
a send is accepted precisely when the queue is empty — at most one submitted Command
is in flight but unclaimed, and a further submission suspends until a worker makes
room. -/
theorem command_queue_capacity_one :
    commandChannelCapacity = 1 ∧
    ∀ (q : List Nat) (c : Nat),
      (trySend commandChannelCapacity q c).isSome ↔ q.length = 0 := by
  refine ⟨rfl, ?_⟩
  intro q c
  by_cases h : q.length < commandChannelCapacity
  · simp [trySend, h]
    simpa [commandChannelCapacity, Nat.lt_one_iff] using h
  · simp [trySend, h]
    simpa [commandChannelCapacity, Nat.lt_one_iff] using h

end ExtPy

namespace Pedersen

/-- Claim C9, counterexample: structural equality compares coordinates even at
infinity, so for the point at infinity with `x = 1` the right-addition of the
identity returns the canonical identity (zero coordinates), which differs from the
original point; `identity` is therefore not a two-sided identity for every curve
point. -/
theorem add_identity_not_universal :
    CurvePoint.add { x := 1, y := 0, infinity := true } CurvePoint.identity
      ≠ some { x := 1, y := 0, infinity := true } := by
  intro h
  have h0 : (some CurvePoint.identity : Option CurvePoint)
      = some { x := 1, y := 0, infinity := true } := h
  have h1 : CurvePoint.identity = { x := 1, y := 0, infinity := true } :=
    Option.some.inj h0
  exact zero_ne_one (congrArg CurvePoint.x h1)

/-- Claim C9 (corrected): `identity` is a left identity for `add` on every point,
and a right identity on every point not at infinity; on a point at infinity the
right-addition returns the canonical identity itself, which coincides with the
point exactly when its stored coordinates are zero. -/
theorem identity_add (p : CurvePoint) :
    CurvePoint.add CurvePoint.identity p = some p ∧
    CurvePoint.add p CurvePoint.identity
      = some (if p.infinity then CurvePoint.identity else p) := by
  constructor
  · simp [CurvePoint.add, CurvePoint.identity]
  · cases hp : p.infinity <;> simp [CurvePoint.add, CurvePoint.identity, hp]

/-- Claim C10 (confirmed): for two points that are not at infinity, `add` panics
(unwraps a failed inversion) exactly when the x-coordinates coincide, and returns a
point whenever they differ. -/
theorem add_panics_iff_same_x (p q : CurvePoint)
    (hp : p.infinity = false) (hq : q.infinity = false) :
    CurvePoint.add p q = none ↔ p.x = q.x := by
  simp only [CurvePoint.add, hp, hq, Bool.false_eq_true, if_false]
  unfold Fp.invert
  by_cases hx : q.x - p.x = 0
  · simp only [hx, if_pos rfl]
    exact ⟨fun _ => (sub_eq_zero.mp hx).symm, fun _ => rfl⟩
  · simp only [if_neg hx]
    constructor
    · intro h
      exact absurd h (by simp)
    · intro h
      exact absurd (sub_eq_zero.mpr h.symm) hx

/-- Claim C10 witness: adding two distinct-x points succeeds, and a shared
x-coordinate is exactly the panic case at a concrete pair. -/
theorem add_panics_iff_same_x_example :
    CurvePoint.add { x := 0, y := 0, infinity := false }
        { x := 0, y := 1, infinity := false } = none :=
  (add_panics_iff_same_x
      { x := 0, y := 0, infinity := false }
      { x := 0, y := 1, infinity := false } rfl rfl).mpr rfl

end Pedersen
